import Mathlib

/-!
Verification of the preview-composition and persistence logic of
`src/OnlineCodeEditor.jsx` (a browser code playground with three source
buffers, a composed preview document, URL sharing, local persistence,
templates, and export).

Strings are modelled as `List Char` over Lean `Char` (Unicode scalar
values), which matches the spec's notion of a valid string.  Browser
builtins used by the component (`btoa`/`atob`, `encodeURIComponent` /
`unescape` composition, `JSON.stringify`/`JSON.parse`, `URLSearchParams`
value encoding) are modelled explicitly below; each model's doc comment
states the fragment it covers.
-/

namespace OnlineCodeEditor

/-- Bundle of the three user-authored buffers (the spec's SourceBundle):
the `html`, `css` and `js` state variables of `OnlineCodeEditor`. -/
structure Bundle where
  html : String
  css : String
  js : String
deriving DecidableEq

/-! ## Base64 (models of `btoa` / `atob`) -/

/-- Character of the standard base64 alphabet for a sextet `n < 64`
(`A`-`Z`, `a`-`z`, `0`-`9`, `+`, `/`), as used by `btoa`. -/
def b64Char (n : Nat) : Char :=
  if n < 26 then Char.ofNat (65 + n)
  else if n < 52 then Char.ofNat (97 + (n - 26))
  else if n < 62 then Char.ofNat (48 + (n - 52))
  else if n = 62 then Char.ofNat 43
  else Char.ofNat 47

/-- Inverse of the base64 alphabet: the sextet value of a character, or
`none` when the character is not in the alphabet (this is how `atob`
rejects junk, including misplaced `=`). -/
def b64Sextet (c : Char) : Option Nat :=
  if 65 ≤ c.toNat ∧ c.toNat ≤ 90 then some (c.toNat - 65)
  else if 97 ≤ c.toNat ∧ c.toNat ≤ 122 then some (c.toNat - 97 + 26)
  else if 48 ≤ c.toNat ∧ c.toNat ≤ 57 then some (c.toNat - 48 + 52)
  else if c.toNat = 43 then some 62
  else if c.toNat = 47 then some 63
  else none

/-- Model of `btoa` on a byte list: emit one group of four base64
characters per three input bytes, padding a final group of one or two
bytes with `=`. -/
def btoaChunks : List Nat → List Char
  | [] => []
  | [b1] => [b64Char (b1 / 4), b64Char (b1 % 4 * 16), '=', '=']
  | [b1, b2] => [b64Char (b1 / 4), b64Char (b1 % 4 * 16 + b2 / 16), b64Char (b2 % 16 * 4), '=']
  | b1 :: b2 :: b3 :: rest =>
      b64Char (b1 / 4) :: b64Char (b1 % 4 * 16 + b2 / 16) ::
      b64Char (b2 % 16 * 4 + b3 / 64) :: b64Char (b3 % 64) :: btoaChunks rest

/-- Decode of two base64 characters into one byte (a final unpadded or
`==`-padded group). -/
def b64Dec2 (c1 c2 : Char) : Option (List Nat) :=
  match b64Sextet c1, b64Sextet c2 with
  | some s1, some s2 => some [s1 * 4 + s2 / 16]
  | _, _ => none

/-- Decode of three base64 characters into two bytes (a final unpadded or
`=`-padded group). -/
def b64Dec3 (c1 c2 c3 : Char) : Option (List Nat) :=
  match b64Sextet c1, b64Sextet c2, b64Sextet c3 with
  | some s1, some s2, some s3 => some [s1 * 4 + s2 / 16, s2 % 16 * 16 + s3 / 4]
  | _, _, _ => none

/-- Decode of a full group of four base64 characters into three bytes,
prepended onto an already-decoded tail. -/
def b64Dec4 (c1 c2 c3 c4 : Char) (tail : Option (List Nat)) : Option (List Nat) :=
  match b64Sextet c1, b64Sextet c2, b64Sextet c3, b64Sextet c4, tail with
  | some s1, some s2, some s3, some s4, some bs =>
      some ((s1 * 4 + s2 / 16) :: (s2 % 16 * 16 + s3 / 4) :: (s3 % 4 * 64 + s4) :: bs)
  | _, _, _, _, _ => none

/-- Group-wise body of the `atob` model (forgiving base64): groups of
four characters decode to three bytes; a final group of two or three
characters (optionally completed by `=` padding) decodes to one or two
bytes; anything else fails. -/
def atobQuads : List Char → Option (List Nat)
  | [] => some []
  | [c1, c2] => b64Dec2 c1 c2
  | [c1, c2, c3] => b64Dec3 c1 c2 c3
  | c1 :: c2 :: c3 :: c4 :: rest =>
      if rest = [] then
        if c3 = '=' then (if c4 = '=' then b64Dec2 c1 c2 else none)
        else if c4 = '=' then b64Dec3 c1 c2 c3
        else b64Dec4 c1 c2 c3 c4 (some [])
      else b64Dec4 c1 c2 c3 c4 (atobQuads rest)
  | _ => none

/-- ASCII whitespace, which forgiving base64 (`atob`) strips before
decoding. -/
def isB64Ws (c : Char) : Bool :=
  c.toNat = 9 || c.toNat = 10 || c.toNat = 12 || c.toNat = 13 || c.toNat = 32

/-- Model of `atob`: strip ASCII whitespace, then decode base64 groups,
returning `none` where `atob` would throw. -/
def atobModel (s : List Char) : Option (List Nat) :=
  atobQuads (s.filter (fun c => !isB64Ws c))

/-- Character of a base64 token: a member of the base64 alphabet or the
padding character `=`. -/
def isB64TokenChar (c : Char) : Bool :=
  (b64Sextet c).isSome || c = '='

/-! ## UTF-8 bytes

In the component, `unescape(encodeURIComponent(s))` turns a string into
the string of its UTF-8 bytes before `btoa`, and
`decodeURIComponent(escape(t))` is the inverse after `atob`.  These two
compositions are modelled as UTF-8 encoding to a byte list and strict
UTF-8 decoding from one. -/

/-- UTF-8 bytes of one scalar value `n` (the code point of a character). -/
def utf8EncodeChar (n : Nat) : List Nat :=
  if n < 128 then [n]
  else if n < 2048 then [192 + n / 64, 128 + n % 64]
  else if n < 65536 then [224 + n / 4096, 128 + n / 64 % 64, 128 + n % 64]
  else [240 + n / 262144, 128 + n / 4096 % 64, 128 + n / 64 % 64, 128 + n % 64]

/-- UTF-8 encoding of a character list, as produced by
`unescape(encodeURIComponent(s))` (byte values as naturals). -/
def utf8Encode (s : List Char) : List Nat :=
  s.flatMap (fun c => utf8EncodeChar c.toNat)

/-- Helper of the UTF-8 decoder: accept the code point `n` as a character
when it is a Unicode scalar value. -/
def utf8Some (n : Nat) (rest : List Nat) : Option (Char × List Nat) :=
  if Nat.isValidChar n then some (Char.ofNat n, rest) else none

/-- Decode of one UTF-8-encoded code point from the head of a byte list
(strict: stray or missing continuation bytes, overlong forms, surrogates
and out-of-range values are rejected, as `decodeURIComponent` rejects
them with a `URIError`). -/
def utf8DecodeStep : List Nat → Option (Char × List Nat)
  | [] => none
  | b1 :: rest =>
    if b1 < 128 then utf8Some b1 rest
    else if b1 < 192 then none
    else if b1 < 224 then
      match rest with
      | b2 :: rest2 =>
        if 128 ≤ b2 ∧ b2 < 192 ∧ 128 ≤ (b1 - 192) * 64 + (b2 - 128) then
          utf8Some ((b1 - 192) * 64 + (b2 - 128)) rest2
        else none
      | [] => none
    else if b1 < 240 then
      match rest with
      | b2 :: b3 :: rest2 =>
        if 128 ≤ b2 ∧ b2 < 192 ∧ 128 ≤ b3 ∧ b3 < 192 ∧
            2048 ≤ (b1 - 224) * 4096 + (b2 - 128) * 64 + (b3 - 128) then
          utf8Some ((b1 - 224) * 4096 + (b2 - 128) * 64 + (b3 - 128)) rest2
        else none
      | _ => none
    else if b1 < 248 then
      match rest with
      | b2 :: b3 :: b4 :: rest2 =>
        if 128 ≤ b2 ∧ b2 < 192 ∧ 128 ≤ b3 ∧ b3 < 192 ∧ 128 ≤ b4 ∧ b4 < 192 ∧
            65536 ≤ (b1 - 240) * 262144 + (b2 - 128) * 4096 + (b3 - 128) * 64 + (b4 - 128) then
          utf8Some ((b1 - 240) * 262144 + (b2 - 128) * 4096 + (b3 - 128) * 64 + (b4 - 128)) rest2
        else none
      | _ => none
    else none

/-- Iteration of `utf8DecodeStep` over a whole byte list.  The fuel
argument is only a termination device: one unit is spent per decoded
character, so any fuel above the byte count is enough. -/
def utf8DecodeLoop : Nat → List Nat → Option (List Char)
  | 0, _ => none
  | _ + 1, [] => some []
  | fuel + 1, b1 :: rest =>
    match utf8DecodeStep (b1 :: rest) with
    | some (c, rest2) => (utf8DecodeLoop fuel rest2).map (fun cs => c :: cs)
    | none => none

/-- Model of `decodeURIComponent(escape(t))` on a byte list: strict UTF-8
decoding, `none` where the original would throw. -/
def utf8Decode (bytes : List Nat) : Option (List Char) :=
  utf8DecodeLoop (bytes.length + 1) bytes

/-! ## JSON (models of `JSON.stringify` / `JSON.parse` on the fragment used)

`JSON.parse` is a browser builtin; it is modelled here on the fragment of
JSON the component itself reads and writes: primitives (strings, `null`,
booleans) and flat objects with primitive values, with no surrounding
whitespace.  Numbers, arrays and nested objects never arise from the
component's own writers (`JSON.stringify` of string-field objects). -/

/-- Opening brace character (written by code point to keep literals
simple). -/
def lbrace : Char := Char.ofNat 123

/-- Closing brace character. -/
def rbrace : Char := Char.ofNat 125

/-- Primitive JSON value: a string, `null`, or a boolean. -/
inductive JsonPrim where
  | str (s : List Char)
  | jnull
  | jbool (b : Bool)
deriving DecidableEq

/-- JSON value of the modelled fragment: a primitive or a flat object
whose field values are primitives. -/
inductive JsonVal where
  | prim (p : JsonPrim)
  | obj (fields : List (List Char × JsonPrim))
deriving DecidableEq

/-- Lowercase hexadecimal digit character for `n < 16`. -/
def hexDigitChar (n : Nat) : Char :=
  if n < 10 then Char.ofNat (48 + n) else Char.ofNat (87 + n)

/-- Escaping of one string character exactly as `JSON.stringify` escapes
string contents: quote and backslash get a backslash escape, the five
named control characters get their short escapes, the remaining control
characters get `\u00..`, and everything else is copied verbatim. -/
def escapeChar (c : Char) : List Char :=
  if c = '"' then ['\\', '"']
  else if c = '\\' then ['\\', '\\']
  else if c = Char.ofNat 8 then ['\\', 'b']
  else if c = Char.ofNat 9 then ['\\', 't']
  else if c = Char.ofNat 10 then ['\\', 'n']
  else if c = Char.ofNat 12 then ['\\', 'f']
  else if c = Char.ofNat 13 then ['\\', 'r']
  else if c.toNat < 32 then
    ['\\', 'u', '0', '0', hexDigitChar (c.toNat / 16), hexDigitChar (c.toNat % 16)]
  else [c]

/-- A JSON string literal: quote, escaped contents, quote. -/
def jsonQuote (s : List Char) : List Char :=
  '"' :: (s.flatMap escapeChar ++ ['"'])

/-- Value of a hexadecimal digit character (either case), or `none`. -/
def parseHex (c : Char) : Option Nat :=
  if 48 ≤ c.toNat ∧ c.toNat ≤ 57 then some (c.toNat - 48)
  else if 97 ≤ c.toNat ∧ c.toNat ≤ 102 then some (c.toNat - 87)
  else if 65 ≤ c.toNat ∧ c.toNat ≤ 70 then some (c.toNat - 55)
  else none

/-- Prepend a decoded character onto a string-parser result. -/
def strCons (c : Char) (r : Option (List Char × List Char)) : Option (List Char × List Char) :=
  r.map (fun p => (c :: p.1, p.2))

/-- Parser for a JSON string body (after the opening quote), returning
the decoded contents and the input after the closing quote.  Strict JSON
string grammar: raw control characters are rejected, escapes are the
named ones plus `\uXXXX`; a `\uXXXX` escape denoting a surrogate code
point is rejected (such a value is not a scalar value; none arises from
the component's own encoders).  The fuel argument is a termination
device only: one unit is spent per decoded character, so any fuel above
the input length is enough. -/
def parseStringBody : Nat → List Char → Option (List Char × List Char)
  | 0, _ => none
  | _ + 1, [] => none
  | fuel + 1, c :: rest =>
    if c = '"' then some ([], rest)
    else if c = '\\' then
      match rest with
      | [] => none
      | e :: rest2 =>
        if e = '"' then strCons '"' (parseStringBody fuel rest2)
        else if e = '\\' then strCons '\\' (parseStringBody fuel rest2)
        else if e = '/' then strCons '/' (parseStringBody fuel rest2)
        else if e = 'b' then strCons (Char.ofNat 8) (parseStringBody fuel rest2)
        else if e = 'f' then strCons (Char.ofNat 12) (parseStringBody fuel rest2)
        else if e = 'n' then strCons (Char.ofNat 10) (parseStringBody fuel rest2)
        else if e = 'r' then strCons (Char.ofNat 13) (parseStringBody fuel rest2)
        else if e = 't' then strCons (Char.ofNat 9) (parseStringBody fuel rest2)
        else if e = 'u' then
          match rest2 with
          | h1 :: h2 :: h3 :: h4 :: rest3 =>
            match parseHex h1, parseHex h2, parseHex h3, parseHex h4 with
            | some a1, some a2, some a3, some a4 =>
              if Nat.isValidChar (a1 * 4096 + a2 * 256 + a3 * 16 + a4) then
                strCons (Char.ofNat (a1 * 4096 + a2 * 256 + a3 * 16 + a4))
                  (parseStringBody fuel rest3)
              else none
            | _, _, _, _ => none
          | _ => none
        else none
    else if c.toNat < 32 then none
    else strCons c (parseStringBody fuel rest)

/-- Parser for one primitive JSON value: a string literal, `null`,
`true` or `false` (numbers and arrays are outside the modelled
fragment). -/
def parsePrim : List Char → Option (JsonPrim × List Char)
  | [] => none
  | c :: rest =>
    if c = '"' then
      (parseStringBody (rest.length + 1) rest).map (fun p => (JsonPrim.str p.1, p.2))
    else if c = 'n' then
      match rest with
      | c1 :: c2 :: c3 :: r =>
        if c1 = 'u' ∧ c2 = 'l' ∧ c3 = 'l' then some (JsonPrim.jnull, r) else none
      | _ => none
    else if c = 't' then
      match rest with
      | c1 :: c2 :: c3 :: r =>
        if c1 = 'r' ∧ c2 = 'u' ∧ c3 = 'e' then some (JsonPrim.jbool true, r) else none
      | _ => none
    else if c = 'f' then
      match rest with
      | c1 :: c2 :: c3 :: c4 :: r =>
        if c1 = 'a' ∧ c2 = 'l' ∧ c3 = 's' ∧ c4 = 'e' then some (JsonPrim.jbool false, r)
        else none
      | _ => none
    else none

/-- Parser for the member list of a JSON object (`"key":value` pairs
separated by commas, ending at the closing brace).  The fuel argument is
a termination device: one unit per member. -/
def parseMembers : Nat → List Char → Option (List (List Char × JsonPrim) × List Char)
  | 0, _ => none
  | fuel + 1, s =>
    match s with
    | [] => none
    | c :: rest =>
      if c = '"' then
        match parseStringBody (rest.length + 1) rest with
        | some (key, r2) =>
          match r2 with
          | d :: r3 =>
            if d = ':' then
              match parsePrim r3 with
              | some (v, r4) =>
                match r4 with
                | e :: r5 =>
                  if e = ',' then (parseMembers fuel r5).map (fun p => ((key, v) :: p.1, p.2))
                  else if e = rbrace then some ([(key, v)], r5)
                  else none
                | [] => none
              | none => none
            else none
          | [] => none
        | none => none
      else none

/-- Key of the `html` field. -/
def htmlKey : List Char := "html".data

/-- Key of the `css` field. -/
def cssKey : List Char := "css".data

/-- Key of the `js` field. -/
def jsKey : List Char := "js".data

/-- Model of `JSON.stringify({ html, css, js })` for a bundle: keys in
insertion order, every string quoted with `JSON.stringify` escaping, no
whitespace. -/
def stringifyBundle (b : Bundle) : List Char :=
  lbrace :: (jsonQuote htmlKey ++ (':' :: (jsonQuote b.html.data ++ (',' ::
    (jsonQuote cssKey ++ (':' :: (jsonQuote b.css.data ++ (',' ::
    (jsonQuote jsKey ++ (':' :: (jsonQuote b.js.data ++ [rbrace])))))))))))

/-- JSON object corresponding to a bundle, as `JSON.parse` returns it. -/
def bundleJson (b : Bundle) : JsonVal :=
  JsonVal.obj [(htmlKey, JsonPrim.str b.html.data), (cssKey, JsonPrim.str b.css.data),
    (jsKey, JsonPrim.str b.js.data)]

/-- Parser for a JSON value of the modelled fragment: a flat object or a
primitive. -/
def parseValue (s : List Char) : Option (JsonVal × List Char) :=
  match s with
  | [] => none
  | c :: rest =>
    if c = lbrace then
      if rest.head? = some rbrace then some (JsonVal.obj [], rest.tail)
      else (parseMembers (rest.length + 1) rest).map (fun p => (JsonVal.obj p.1, p.2))
    else (parsePrim (c :: rest)).map (fun p => (JsonVal.prim p.1, p.2))

/-- Model of `JSON.parse` (wrapped in the component's try/catch, `none`
standing for the caught failure): parse a complete text of the modelled
fragment. -/
def jsonParse (s : List Char) : Option JsonVal :=
  match parseValue s with
  | some (v, []) => some v
  | _ => none

/-! ## The share encoding (`encodeState` / `decodeState`) -/

/-- Model of `encodeState`:
`btoa(unescape(encodeURIComponent(JSON.stringify(s))))` applied to a
bundle.  The source wraps this in try/catch returning `""`, but the
catch can only fire on lone surrogates, which valid strings (Lean
`Char`s) exclude, so the model is the plain pipeline. -/
def encodeState (b : Bundle) : List Char :=
  btoaChunks (utf8Encode (stringifyBundle b))

/-- Model of `decodeState`:
`JSON.parse(decodeURIComponent(escape(atob(str))))` with the try/catch
returning `null` modelled as `none`. -/
def decodeState (s : List Char) : Option JsonVal :=
  match atobModel s with
  | none => none
  | some bytes =>
    match utf8Decode bytes with
    | none => none
    | some cs => jsonParse cs

/-! ## The composed document (`srcDoc`) and templates -/

/-- Literal document text before the css interpolation in the `srcDoc`
template. -/
def docSeg1 : String := "<!doctype html>\n<html>\n  <head>\n    <meta charset=\"utf-8\">\n    <meta name=\"viewport\" content=\"width=device-width, initial-scale=1\">\n    <style>"

/-- Literal document text between the css and html interpolations. -/
def docSeg2 : String := "</style>\n  </head>\n  <body>\n    "

/-- Literal document text between the html and js interpolations: it
opens the script block and the `try` guard. -/
def docSeg3 : String := "\n    <script>\n      try \x7b\n        "

/-- Literal document text after the js interpolation: it closes the
`try` guard with the `catch` handler that logs the fault and appends a
red `pre` element with the stack or message to the document body, then
closes script, body and html. -/
def docSeg4 : String := "\n      \x7d catch (e) \x7b\n        console.error(e);\n        const pre = document.createElement(\x27pre\x27);\n        pre.style.color = \x27red\x27;\n        pre.textContent = e.stack || e.toString();\n        document.body.appendChild(pre);\n      \x7d\n    </script>\n  </body>\n</html>"

/-- Model of the `srcDoc` memo: the single composed document built from
the current bundle by interpolating the three buffers into the template
literal. -/
def srcDoc (b : Bundle) : List Char :=
  docSeg1.data ++ (b.css.data ++ (docSeg2.data ++ (b.html.data ++
    (docSeg3.data ++ (b.js.data ++ docSeg4.data)))))

/-- The `DEFAULT_TEMPLATE` preset bundle. -/
def DEFAULT_TEMPLATE : Bundle where
  html := "<!doctype html>\n<html>\n  <head>\n    <meta charset=\"utf-8\" />\n    <meta name=\"viewport\" content=\"width=device-width, initial-scale=1\" />\n    <title>Playground</title>\n  </head>\n  <body>\n    <div id=\"app\">Hello — write HTML, CSS & JS!</div>\n  </body>\n</html>"
  css := "/* Styles go here */\nbody \x7b font-family: system-ui, -apple-system, Segoe UI, Roboto, \"Helvetica Neue\", Arial; padding: 24px; \x7d\n#app \x7b padding: 20px; border-radius: 8px; background: #f7f7f7; \x7d\n"
  js := "// JS goes here\nconst el = document.getElementById(\x27app\x27);\nel.innerHTML += \x27<p style=\"color:green\">JS ran</p>\x27;\n"

/-- The `starter` preset bundle of `TEMPLATES`. -/
def starterTemplate : Bundle where
  html := "<!doctype html>\n<html><body><h1>Starter</h1><div id=\"app\"></div></body></html>"
  css := "body\x7bfont-family:system-ui;padding:20px\x7d"
  js := "document.getElementById(\x27app\x27).innerText = \x27Starter template loaded\x27;"

/-- The `reactPlay` preset bundle of `TEMPLATES`. -/
def reactPlayTemplate : Bundle where
  html := "<!doctype html>\n<html><body><div id=\"root\"></div><script src=\"https://unpkg.com/react@18/umd/react.development.js\"></script><script src=\"https://unpkg.com/react-dom@18/umd/react-dom.development.js\"></script></body></html>"
  css := "/* react play css */"
  js := "const e = React.createElement; ReactDOM.createRoot(document.getElementById(\x27root\x27)).render(e(\x27h2\x27, null, \x27React in iframe\x27));"

/-- The named preset lookup (the `TEMPLATES` object). -/
def TEMPLATES (name : String) : Option Bundle :=
  if name = "default" then some DEFAULT_TEMPLATE
  else if name = "starter" then some starterTemplate
  else if name = "reactPlay" then some reactPlayTemplate
  else none

/-- Model of `applyTemplate`: look the name up; on a miss return with no
state change (`if (!t) return`), otherwise set all three buffers to the
preset's values. -/
def applyTemplate (name : String) (cur : Bundle) : Bundle :=
  match TEMPLATES name with
  | none => cur
  | some t => { html := t.html, css := t.css, js := t.js }

/-- Model of `downloadProject`'s file content: `const fileContent =
srcDoc`, so the downloaded `playground.html` blob is exactly the
composed document. -/
def downloadProject (b : Bundle) : List Char :=
  srcDoc b

/-! ## Preview synchronization state machine

The preview surface is the sandboxed iframe.  Relevant component state:
the bundle, the `autoUpdate` flag, the pending debounce timer (holding
the composed document captured when it was scheduled), the surface's
current document, and a render counter.  Events are buffer edits, the
debounce timer firing, and the Refresh button.  Toggling `autoUpdate`
mid-run is outside the modelled claims. -/

structure PreviewState where
  bundle : Bundle
  autoUpdate : Bool
  pending : Option (List Char)
  surface : Option (List Char)
  renders : Nat
deriving DecidableEq

inductive Event where
  | edit (b : Bundle)
  | timerFire
  | refreshClick
deriving DecidableEq

/-- Replace the whole content of the preview surface (one render). -/
def writeSurface (m : PreviewState) (d : List Char) : PreviewState :=
  { m with surface := some d, renders := m.renders + 1 }

/-- React's sync of the iframe attribute binding
`srcDoc=\x7bautoUpdate ? undefined : srcDoc\x7d` after a state change:
when `autoUpdate` is false the attribute tracks the composed document,
and changing the attribute re-renders the surface with the new
document. -/
def attrSync (m : PreviewState) : PreviewState :=
  if m.autoUpdate then m
  else if m.surface = some (srcDoc m.bundle) then m
  else writeSurface m (srcDoc m.bundle)

/-- One event of the preview pipeline.

An `edit` replaces the bundle; the debounced `useEffect` (dependencies
`[srcDoc, autoUpdate]`) clears any previous timeout and schedules a new
one capturing the new composed document when `autoUpdate` is on, and
returns early when it is off; React then syncs the iframe attribute.
`timerFire` is the scheduled timeout running `doc.write` with the
captured document.  `refreshClick` is `refreshPreview`, writing the
current composed document unconditionally. -/
def step (m : PreviewState) : Event → PreviewState
  | Event.edit b =>
      let p := if m.autoUpdate then some (srcDoc b) else m.pending
      attrSync { m with bundle := b, pending := p }
  | Event.timerFire =>
      match m.pending with
      | some d => writeSurface { m with pending := none } d
      | none => m
  | Event.refreshClick => writeSurface m (srcDoc m.bundle)

/-- Fold a list of edit events into the machine. -/
def editsRun (m : PreviewState) (bs : List Bundle) : PreviewState :=
  bs.foldl (fun m b => step m (Event.edit b)) m

/-! ## Initial load resolution -/

/-- Field access `v?.k` on a decoded JS value: `undefined` (here `none`)
unless the value is an object carrying the field; a later duplicate key
wins, as in JS object construction. -/
def jsGet (v : Option JsonVal) (k : List Char) : Option JsonPrim :=
  match v with
  | some (JsonVal.obj fields) =>
      fields.foldl (fun acc p => if p.1 = k then some p.2 else acc) none
  | _ => none

/-- Nullish test of the `??` operator: `undefined` or `null`. -/
def nullish (v : Option JsonPrim) : Bool :=
  match v with
  | none => true
  | some JsonPrim.jnull => true
  | _ => false

/-- The `a ?? b` operator on possibly-absent field values. -/
def coalesce (a b : Option JsonPrim) : Option JsonPrim :=
  if nullish a then b else a

/-- The final `a ?? d` against a plain present default. -/
def coalesceD (a : Option JsonPrim) (d : JsonPrim) : JsonPrim :=
  if nullish a then d else a.getD d

/-- Inputs read by the component on initial load: the `code` query
parameter, the raw local-storage slot under `storageKey`, and the
`initial` prop (an object of optional fields, `\x7b\x7d` by default). -/
structure InitSources where
  urlCode : Option (List Char)
  storageRaw : Option (List Char)
  initial : List (List Char × JsonPrim)

/-- `fromUrl`: `urlCode ? decodeState(urlCode) : null`. -/
def fromUrl (src : InitSources) : Option JsonVal :=
  match src.urlCode with
  | some t => decodeState t
  | none => none

/-- `fromStorage`: `JSON.parse(localStorage.getItem(storageKey))` inside
try/catch returning `null`; an absent slot is `null` as well. -/
def fromStorage (src : InitSources) : Option JsonVal :=
  match src.storageRaw with
  | some raw => jsonParse raw
  | none => none

/-- Field lookup in the `initial` prop object. -/
def initialGet (src : InitSources) (k : List Char) : Option JsonPrim :=
  src.initial.foldl (fun acc p => if p.1 = k then some p.2 else acc) none

/-- `useState` initializer of the `html` buffer:
`fromUrl?.html ?? fromStorage?.html ?? initial.html ??
DEFAULT_TEMPLATE.html` (left-associated `??` as parsed). -/
def initHtml (src : InitSources) : JsonPrim :=
  coalesceD (coalesce (coalesce (jsGet (fromUrl src) htmlKey)
    (jsGet (fromStorage src) htmlKey)) (initialGet src htmlKey))
    (JsonPrim.str DEFAULT_TEMPLATE.html.data)

/-- `useState` initializer of the `css` buffer. -/
def initCss (src : InitSources) : JsonPrim :=
  coalesceD (coalesce (coalesce (jsGet (fromUrl src) cssKey)
    (jsGet (fromStorage src) cssKey)) (initialGet src cssKey))
    (JsonPrim.str DEFAULT_TEMPLATE.css.data)

/-- `useState` initializer of the `js` buffer. -/
def initJs (src : InitSources) : JsonPrim :=
  coalesceD (coalesce (coalesce (jsGet (fromUrl src) jsKey)
    (jsGet (fromStorage src) jsKey)) (initialGet src jsKey))
    (JsonPrim.str DEFAULT_TEMPLATE.js.data)

/-! ## Persistence (`saveToLocal`) -/

/-- Key of the `updatedAt` payload field. -/
def updatedAtKey : List Char := "updatedAt".data

/-- Model of `JSON.stringify(\x7b html, css, js, updatedAt \x7d)`, the
payload written by `saveToLocal`. -/
def stringifyPayload (b : Bundle) (now : List Char) : List Char :=
  lbrace :: (jsonQuote htmlKey ++ (':' :: (jsonQuote b.html.data ++ (',' ::
    (jsonQuote cssKey ++ (':' :: (jsonQuote b.css.data ++ (',' ::
    (jsonQuote jsKey ++ (':' :: (jsonQuote b.js.data ++ (',' ::
    (jsonQuote updatedAtKey ++ (':' :: (jsonQuote now ++ [rbrace])))))))))))))))

/-- Component state relevant to saving: the three buffers, the
`lastSavedAt` label and the single local-storage slot. -/
structure AppState where
  bundle : Bundle
  lastSavedAt : Option (List Char)
  stored : Option (List Char)
deriving DecidableEq

/-- Model of `saveToLocal`: build the payload, then `setItem` inside
try/catch.  `storageOk = false` stands for a throwing `setItem`
(unavailable storage or exceeded quota); then only the console warning
is logged.  On success, the slot and `lastSavedAt` are updated.  The
second component collects the log. -/
def saveToLocal (storageOk : Bool) (now : List Char) (st : AppState) :
    AppState × List (List Char) :=
  let payload := stringifyPayload st.bundle now
  if storageOk then
    ({ st with stored := some payload, lastSavedAt := some now }, [])
  else
    (st, [("Could not save:").data])

/-! ## Share URLs (`generateShareURL` and the query reader) -/

/-- Characters the form-urlencoded serializer keeps verbatim:
`*`, `-`, `.`, `_`, digits and letters. -/
def formSafeChar (c : Char) : Bool :=
  c.toNat = 42 || c.toNat = 45 || c.toNat = 46 || c.toNat = 95 ||
  (decide (48 ≤ c.toNat) && decide (c.toNat ≤ 57)) ||
  (decide (65 ≤ c.toNat) && decide (c.toNat ≤ 90)) ||
  (decide (97 ≤ c.toNat) && decide (c.toNat ≤ 122))

/-- Uppercase hexadecimal digit character for `n < 16`. -/
def hexUpper (n : Nat) : Char :=
  if n < 10 then Char.ofNat (48 + n) else Char.ofNat (55 + n)

/-- Model of the `URLSearchParams` value serializer used by
`u.searchParams.set("code", code)` in `generateShareURL`, restricted to
ASCII input (share tokens are base64, hence ASCII): safe characters
verbatim, space as `+`, everything else percent-encoded. -/
def serializeFormValue (s : List Char) : List Char :=
  s.flatMap (fun c =>
    if formSafeChar c then [c]
    else if c.toNat = 32 then ['+']
    else ['%', hexUpper (c.toNat / 16), hexUpper (c.toNat % 16)])

/-- Fuel-driven body of the `URLSearchParams` value parser (the reader
behind `urlParams.get("code")`), restricted to ASCII: `+` denotes a
space, `%XX` percent-escapes decode, anything else is verbatim (an
invalid escape stays as written).  One fuel unit per consumed escape or
character. -/
def parseFormValueAux : Nat → List Char → List Char
  | 0, _ => []
  | _ + 1, [] => []
  | fuel + 1, c :: rest =>
    if c = '+' then ' ' :: parseFormValueAux fuel rest
    else if c = '%' then
      match rest with
      | d1 :: d2 :: rest2 =>
        match parseHex d1, parseHex d2 with
        | some a1, some a2 => Char.ofNat (a1 * 16 + a2) :: parseFormValueAux fuel rest2
        | _, _ => c :: parseFormValueAux fuel rest
      | _ => c :: parseFormValueAux fuel rest
    else c :: parseFormValueAux fuel rest

/-- The `URLSearchParams` value parser. -/
def parseFormValue (s : List Char) : List Char :=
  parseFormValueAux (s.length + 1) s

/-- Query value of the share URL produced by `generateShareURL`: the
`code` parameter value after `searchParams.set` has applied
form-urlencoding to the token. -/
def shareQueryValue (b : Bundle) : List Char :=
  serializeFormValue (encodeState b)

/-! ## Auxiliary definitions for the claims -/

/-- Whether `needle` is a leading segment of `hay`. -/
def startsWithSeg : List Char → List Char → Bool
  | [], _ => true
  | _ :: _, [] => false
  | a :: as, b :: bs => a = b && startsWithSeg as bs

/-- Whether `needle` occurs contiguously inside `hay`. -/
def hasSeg (needle : List Char) : List Char → Bool
  | [] => needle.isEmpty
  | c :: rest => startsWithSeg needle (c :: rest) || hasSeg needle rest

/-- Spec-order per-field resolution (for claim C10): the first
non-nullish entry of the priority chain. -/
def firstNonNullish : List (Option JsonPrim) → Option JsonPrim
  | [] => none
  | a :: rest => if nullish a then firstNonNullish rest else a

/-- Spec-side field resolution: first non-nullish of share-token field,
snapshot field, `initial`-prop field; else the default. -/
def priorityField (src : InitSources) (k : List Char) (d : List Char) : JsonPrim :=
  coalesceD (firstNonNullish
    [jsGet (fromUrl src) k, jsGet (fromStorage src) k, initialGet src k])
    (JsonPrim.str d)

/-- Reading a bundle back out of a decoded share object (the exact shape
produced for a bundle). -/
def bundleOfJson (v : JsonVal) : Option Bundle :=
  match v with
  | JsonVal.obj [(k1, JsonPrim.str h), (k2, JsonPrim.str c), (k3, JsonPrim.str j)] =>
      if k1 = htmlKey ∧ k2 = cssKey ∧ k3 = jsKey then
        some ⟨String.mk h, String.mk c, String.mk j⟩
      else none
  | _ => none

/-- Name of the starter preset. -/
def starterName : String := "starter"

/-- A share token encoding the partial object with only an `html` field
(`base64` of the JSON text). -/
def tokenHtmlA : List Char := ("eyJodG1sIjoiQSJ9").data

/-- A well-formed stored snapshot with all three fields. -/
def storageBCD : List Char := ("\x7b\"html\":\"B\",\"css\":\"C\",\"js\":\"D\"\x7d").data

/-- The same snapshot with a different `css` field. -/
def storageBC2D : List Char := ("\x7b\"html\":\"B\",\"css\":\"C2\",\"js\":\"D\"\x7d").data

/-- A stored snapshot carrying only a `css` field. -/
def storageCOnly : List Char := ("\x7b\"css\":\"C\"\x7d").data

/-- Initial-load inputs: partial share token plus full snapshot. -/
def srcCex1 : InitSources := ⟨some tokenHtmlA, some storageBCD, []⟩

/-- Initial-load inputs: the same token, the variant snapshot. -/
def srcCex2 : InitSources := ⟨some tokenHtmlA, some storageBC2D, []⟩

/-- Initial-load inputs mixing all three sources: token gives `html`,
snapshot gives `css`, the `initial` prop gives `js`. -/
def srcMix : InitSources :=
  ⟨some tokenHtmlA, some storageCOnly, [(jsKey, JsonPrim.str ("J").data)]⟩

/-- A bundle whose share token contains the `+` character. -/
def plusBundle : Bundle := ⟨"aa", "", "\xFE"⟩

theorem b64Sextet_b64Char : ∀ n, n < 64 → b64Sextet (b64Char n) = some n := by decide

theorem b64Char_ne_pad : ∀ n, n < 64 → b64Char n ≠ '=' := by decide

theorem isB64TokenChar_b64Char : ∀ n, n < 64 → isB64TokenChar (b64Char n) = true := by decide

theorem isB64TokenChar_toNat (c : Char) (h : isB64TokenChar c = true) :
    43 ≤ c.toNat ∧ c.toNat ≤ 122 := by
  unfold isB64TokenChar b64Sextet at h
  split_ifs at h with h1 h2 h3 h4 h5
  · omega
  · omega
  · omega
  · omega
  · omega
  · simp only [Option.isSome_none, Bool.false_or, decide_eq_true_eq] at h
    have : c.toNat = 61 := by rw [h]; rfl
    omega

theorem isB64TokenChar_not_ws (c : Char) (h : isB64TokenChar c = true) : isB64Ws c = false := by
  have := isB64TokenChar_toNat c h
  unfold isB64Ws
  simp only [Bool.or_eq_false_iff, decide_eq_false_iff_not]
  omega

/-- Every character emitted by the `btoa` model on genuine bytes lies in
the base64 alphabet (with `=` padding). -/
theorem mem_btoaChunks_token (bytes : List Nat) (hb : ∀ b ∈ bytes, b < 256) :
    ∀ c ∈ btoaChunks bytes, isB64TokenChar c = true := by
  induction bytes using btoaChunks.induct with
  | case1 => intro c hc; simp [btoaChunks] at hc
  | case2 b1 =>
    intro c hc
    have h1 : b1 < 256 := hb b1 (by simp)
    simp only [btoaChunks, List.mem_cons, List.not_mem_nil, or_false] at hc
    rcases hc with rfl | rfl | rfl | rfl
    · exact isB64TokenChar_b64Char _ (by omega)
    · exact isB64TokenChar_b64Char _ (by omega)
    · decide
    · decide
  | case3 b1 b2 =>
    intro c hc
    have h1 : b1 < 256 := hb b1 (by simp)
    have h2 : b2 < 256 := hb b2 (by simp)
    simp only [btoaChunks, List.mem_cons, List.not_mem_nil, or_false] at hc
    rcases hc with rfl | rfl | rfl | rfl
    · exact isB64TokenChar_b64Char _ (by omega)
    · exact isB64TokenChar_b64Char _ (by omega)
    · exact isB64TokenChar_b64Char _ (by omega)
    · decide
  | case4 b1 b2 b3 rest ih =>
    intro c hc
    have h1 : b1 < 256 := hb b1 (by simp)
    have h2 : b2 < 256 := hb b2 (by simp)
    have h3 : b3 < 256 := hb b3 (by simp)
    simp only [btoaChunks, List.mem_cons] at hc
    rcases hc with rfl | rfl | rfl | rfl | hc
    · exact isB64TokenChar_b64Char _ (by omega)
    · exact isB64TokenChar_b64Char _ (by omega)
    · exact isB64TokenChar_b64Char _ (by omega)
    · exact isB64TokenChar_b64Char _ (by omega)
    · exact ih (fun b hb2 => hb b (by simp [hb2])) c hc

/-- The whitespace filter of `atob` leaves `btoa` output untouched. -/
theorem filter_btoaChunks (bytes : List Nat) (hb : ∀ b ∈ bytes, b < 256) :
    (btoaChunks bytes).filter (fun c => !isB64Ws c) = btoaChunks bytes := by
  apply List.filter_eq_self.mpr
  intro c hc
  simp [isB64TokenChar_not_ws c (mem_btoaChunks_token bytes hb c hc)]

theorem btoaChunks_eq_nil (l : List Nat) : btoaChunks l = [] ↔ l = [] := by
  rcases l with _ | ⟨b1, _ | ⟨b2, _ | ⟨b3, rest⟩⟩⟩ <;> simp [btoaChunks]

theorem atobQuads_pad2 (c1 c2 : Char) : atobQuads [c1, c2, '=', '='] = b64Dec2 c1 c2 := rfl

theorem atobQuads_pad3 (c1 c2 c3 : Char) (h3 : c3 ≠ '=') :
    atobQuads [c1, c2, c3, '='] = b64Dec3 c1 c2 c3 := by
  have step : atobQuads [c1, c2, c3, '='] =
      if c3 = '=' then b64Dec2 c1 c2 else b64Dec3 c1 c2 c3 := rfl
  rw [step, if_neg h3]

theorem atobQuads_four (c1 c2 c3 c4 : Char) (h3 : c3 ≠ '=') (h4 : c4 ≠ '=') :
    atobQuads [c1, c2, c3, c4] = b64Dec4 c1 c2 c3 c4 (some []) := by
  have step : atobQuads [c1, c2, c3, c4] =
      if c3 = '=' then (if c4 = '=' then b64Dec2 c1 c2 else none)
      else if c4 = '=' then b64Dec3 c1 c2 c3
      else b64Dec4 c1 c2 c3 c4 (some []) := rfl
  rw [step, if_neg h3, if_neg h4]

theorem atobQuads_cons (c1 c2 c3 c4 : Char) (t : List Char) (ht : t ≠ []) :
    atobQuads (c1 :: c2 :: c3 :: c4 :: t) = b64Dec4 c1 c2 c3 c4 (atobQuads t) := by
  have step : atobQuads (c1 :: c2 :: c3 :: c4 :: t) =
      if t = [] then
        if c3 = '=' then (if c4 = '=' then b64Dec2 c1 c2 else none)
        else if c4 = '=' then b64Dec3 c1 c2 c3
        else b64Dec4 c1 c2 c3 c4 (some [])
      else b64Dec4 c1 c2 c3 c4 (atobQuads t) := rfl
  rw [step, if_neg ht]

/-- Round trip of the group decoder over the group encoder. -/
theorem atobQuads_btoaChunks (bytes : List Nat) (hb : ∀ b ∈ bytes, b < 256) :
    atobQuads (btoaChunks bytes) = some bytes := by
  induction bytes using btoaChunks.induct with
  | case1 => rfl
  | case2 b1 =>
    have h1 : b1 < 256 := hb b1 (by simp)
    have e1 := b64Sextet_b64Char (b1 / 4) (by omega)
    have e2 := b64Sextet_b64Char (b1 % 4 * 16) (by omega)
    show atobQuads [b64Char (b1 / 4), b64Char (b1 % 4 * 16), '=', '='] = some [b1]
    rw [atobQuads_pad2]
    simp only [b64Dec2, e1, e2]
    have hx : b1 / 4 * 4 + b1 % 4 * 16 / 16 = b1 := by omega
    rw [hx]
  | case3 b1 b2 =>
    have h1 : b1 < 256 := hb b1 (by simp)
    have h2 : b2 < 256 := hb b2 (by simp)
    have e1 := b64Sextet_b64Char (b1 / 4) (by omega)
    have e2 := b64Sextet_b64Char (b1 % 4 * 16 + b2 / 16) (by omega)
    have e3 := b64Sextet_b64Char (b2 % 16 * 4) (by omega)
    have ne3 := b64Char_ne_pad (b2 % 16 * 4) (by omega)
    show atobQuads [b64Char (b1 / 4), b64Char (b1 % 4 * 16 + b2 / 16),
      b64Char (b2 % 16 * 4), '='] = some [b1, b2]
    rw [atobQuads_pad3 _ _ _ ne3]
    simp only [b64Dec3, e1, e2, e3]
    have hx1 : b1 / 4 * 4 + (b1 % 4 * 16 + b2 / 16) / 16 = b1 := by omega
    have hx2 : (b1 % 4 * 16 + b2 / 16) % 16 * 16 + b2 % 16 * 4 / 4 = b2 := by omega
    rw [hx1, hx2]
  | case4 b1 b2 b3 rest ih =>
    have h1 : b1 < 256 := hb b1 (by simp)
    have h2 : b2 < 256 := hb b2 (by simp)
    have h3 : b3 < 256 := hb b3 (by simp)
    have e1 := b64Sextet_b64Char (b1 / 4) (by omega)
    have e2 := b64Sextet_b64Char (b1 % 4 * 16 + b2 / 16) (by omega)
    have e3 := b64Sextet_b64Char (b2 % 16 * 4 + b3 / 64) (by omega)
    have e4 := b64Sextet_b64Char (b3 % 64) (by omega)
    have ne3 := b64Char_ne_pad (b2 % 16 * 4 + b3 / 64) (by omega)
    have ne4 := b64Char_ne_pad (b3 % 64) (by omega)
    have ihrest := ih (fun b hb2 => hb b (by simp [hb2]))
    have hx1 : b1 / 4 * 4 + (b1 % 4 * 16 + b2 / 16) / 16 = b1 := by omega
    have hx2 : (b1 % 4 * 16 + b2 / 16) % 16 * 16 + (b2 % 16 * 4 + b3 / 64) / 4 = b2 := by omega
    have hx3 : (b2 % 16 * 4 + b3 / 64) % 4 * 64 + b3 % 64 = b3 := by omega
    show atobQuads (b64Char (b1 / 4) :: b64Char (b1 % 4 * 16 + b2 / 16) ::
      b64Char (b2 % 16 * 4 + b3 / 64) :: b64Char (b3 % 64) :: btoaChunks rest) =
      some (b1 :: b2 :: b3 :: rest)
    by_cases hr : rest = []
    · subst hr
      show atobQuads [b64Char (b1 / 4), b64Char (b1 % 4 * 16 + b2 / 16),
        b64Char (b2 % 16 * 4 + b3 / 64), b64Char (b3 % 64)] = some [b1, b2, b3]
      rw [atobQuads_four _ _ _ _ ne3 ne4]
      simp only [b64Dec4, e1, e2, e3, e4]
      rw [hx1, hx2, hx3]
    · have hne : btoaChunks rest ≠ [] := by
        intro hcontra
        exact hr ((btoaChunks_eq_nil rest).mp hcontra)
      rw [atobQuads_cons _ _ _ _ _ hne, ihrest]
      simp only [b64Dec4, e1, e2, e3, e4]
      rw [hx1, hx2, hx3]

/-- Round trip of the full `atob` model over the `btoa` model. -/
theorem atobModel_btoaChunks (bytes : List Nat) (hb : ∀ b ∈ bytes, b < 256) :
    atobModel (btoaChunks bytes) = some bytes := by
  unfold atobModel
  rw [filter_btoaChunks bytes hb, atobQuads_btoaChunks bytes hb]

theorem char_toNat_valid (c : Char) : Nat.isValidChar c.toNat := c.valid

theorem char_toNat_lt (c : Char) : c.toNat < 1114112 := by
  rcases char_toNat_valid c with h | h <;> omega

/-- Bytes produced by the character encoder are genuine bytes. -/
theorem utf8EncodeChar_lt (n : Nat) (hn : n < 1114112) :
    ∀ b ∈ utf8EncodeChar n, b < 256 := by
  intro b hb
  unfold utf8EncodeChar at hb
  split_ifs at hb with e1 e2 e3
  · simp only [List.mem_cons, List.not_mem_nil, or_false] at hb
    omega
  · simp only [List.mem_cons, List.not_mem_nil, or_false] at hb
    rcases hb with rfl | rfl <;> omega
  · simp only [List.mem_cons, List.not_mem_nil, or_false] at hb
    rcases hb with rfl | rfl | rfl <;> omega
  · simp only [List.mem_cons, List.not_mem_nil, or_false] at hb
    rcases hb with rfl | rfl | rfl | rfl <;> omega

/-- Bytes produced by the string encoder are genuine bytes. -/
theorem utf8Encode_lt (s : List Char) : ∀ b ∈ utf8Encode s, b < 256 := by
  intro b hb
  unfold utf8Encode at hb
  rcases List.mem_flatMap.mp hb with ⟨c, _, hbc⟩
  exact utf8EncodeChar_lt c.toNat (char_toNat_lt c) b hbc

/-- The encoding of one character is never empty. -/
theorem utf8EncodeChar_ne_nil (n : Nat) : utf8EncodeChar n ≠ [] := by
  unfold utf8EncodeChar
  split_ifs <;> simp

/-- One step of the decoder recovers an encoded character from the head
of the byte list and leaves the remaining bytes untouched. -/
theorem utf8DecodeStep_encodeChar (c : Char) (rest : List Nat) :
    utf8DecodeStep (utf8EncodeChar c.toNat ++ rest) = some (c, rest) := by
  have hval : Nat.isValidChar c.toNat := char_toNat_valid c
  have hlt : c.toNat < 1114112 := char_toNat_lt c
  have hofn : Char.ofNat c.toNat = c := Char.ofNat_toNat c
  rcases Nat.lt_or_ge c.toNat 128 with h1 | h1
  · have henc : utf8EncodeChar c.toNat = [c.toNat] := by
      unfold utf8EncodeChar
      rw [if_pos h1]
    rw [henc]
    show utf8DecodeStep (c.toNat :: rest) = _
    simp only [utf8DecodeStep]
    rw [if_pos h1]
    unfold utf8Some
    rw [if_pos hval, hofn]
  · rcases Nat.lt_or_ge c.toNat 2048 with h2 | h2
    · have henc : utf8EncodeChar c.toNat = [192 + c.toNat / 64, 128 + c.toNat % 64] := by
        unfold utf8EncodeChar
        rw [if_neg (by omega), if_pos h2]
      rw [henc]
      show utf8DecodeStep ((192 + c.toNat / 64) :: (128 + c.toNat % 64) :: rest) = _
      simp only [utf8DecodeStep]
      rw [if_neg (by omega), if_neg (by omega), if_pos (by omega), if_pos (by omega)]
      have hn : (192 + c.toNat / 64 - 192) * 64 + (128 + c.toNat % 64 - 128) = c.toNat := by
        omega
      rw [hn]
      unfold utf8Some
      rw [if_pos hval, hofn]
    · rcases Nat.lt_or_ge c.toNat 65536 with h3 | h3
      · have henc : utf8EncodeChar c.toNat =
            [224 + c.toNat / 4096, 128 + c.toNat / 64 % 64, 128 + c.toNat % 64] := by
          unfold utf8EncodeChar
          rw [if_neg (by omega), if_neg (by omega), if_pos h3]
        rw [henc]
        show utf8DecodeStep ((224 + c.toNat / 4096) :: (128 + c.toNat / 64 % 64) ::
          (128 + c.toNat % 64) :: rest) = _
        simp only [utf8DecodeStep]
        rw [if_neg (by omega), if_neg (by omega), if_neg (by omega), if_pos (by omega),
          if_pos (by omega)]
        have hn : (224 + c.toNat / 4096 - 224) * 4096 + (128 + c.toNat / 64 % 64 - 128) * 64 +
            (128 + c.toNat % 64 - 128) = c.toNat := by omega
        rw [hn]
        unfold utf8Some
        rw [if_pos hval, hofn]
      · have henc : utf8EncodeChar c.toNat =
            [240 + c.toNat / 262144, 128 + c.toNat / 4096 % 64, 128 + c.toNat / 64 % 64,
              128 + c.toNat % 64] := by
          unfold utf8EncodeChar
          rw [if_neg (by omega), if_neg (by omega), if_neg (by omega)]
        rw [henc]
        show utf8DecodeStep ((240 + c.toNat / 262144) :: (128 + c.toNat / 4096 % 64) ::
          (128 + c.toNat / 64 % 64) :: (128 + c.toNat % 64) :: rest) = _
        simp only [utf8DecodeStep]
        rw [if_neg (by omega), if_neg (by omega), if_neg (by omega), if_neg (by omega),
          if_pos (by omega), if_pos (by omega)]
        have hn : (240 + c.toNat / 262144 - 240) * 262144 + (128 + c.toNat / 4096 % 64 - 128) *
            4096 + (128 + c.toNat / 64 % 64 - 128) * 64 + (128 + c.toNat % 64 - 128) =
            c.toNat := by omega
        rw [hn]
        unfold utf8Some
        rw [if_pos hval, hofn]

/-- The decode loop inverts the encoder, given fuel above the character
count. -/
theorem utf8DecodeLoop_encode (s : List Char) :
    ∀ f, s.length < f → utf8DecodeLoop f (utf8Encode s) = some s := by
  induction s with
  | nil =>
    intro f hf
    rcases f with _ | f2
    · omega
    · rfl
  | cons c cs ih =>
    intro f hf
    rcases f with _ | f2
    · omega
    · have hstep : utf8Encode (c :: cs) = utf8EncodeChar c.toNat ++ utf8Encode cs := by
        simp [utf8Encode]
      obtain ⟨b, bs, hbb⟩ : ∃ b bs, utf8EncodeChar c.toNat = b :: bs := by
        rcases hcons : utf8EncodeChar c.toNat with _ | ⟨b, bs⟩
        · exact absurd hcons (utf8EncodeChar_ne_nil c.toNat)
        · exact ⟨b, bs, rfl⟩
      rw [hstep, hbb, List.cons_append]
      simp only [utf8DecodeLoop]
      rw [show b :: (bs ++ utf8Encode cs) = utf8EncodeChar c.toNat ++ utf8Encode cs from by
        rw [hbb, List.cons_append]]
      rw [utf8DecodeStep_encodeChar]
      show (utf8DecodeLoop f2 (utf8Encode cs)).map (fun cs => c :: cs) = some (c :: cs)
      rw [ih f2 (by simp at hf; omega)]
      rfl

/-- A string never has more characters than UTF-8 bytes. -/
theorem length_le_utf8Encode (s : List Char) : s.length ≤ (utf8Encode s).length := by
  induction s with
  | nil => simp [utf8Encode]
  | cons c cs ih =>
    have hstep : utf8Encode (c :: cs) = utf8EncodeChar c.toNat ++ utf8Encode cs := by
      simp [utf8Encode]
    have hpos : 1 ≤ (utf8EncodeChar c.toNat).length := by
      rcases hcons : utf8EncodeChar c.toNat with _ | ⟨b, bs⟩
      · exact absurd hcons (utf8EncodeChar_ne_nil c.toNat)
      · simp
    rw [hstep]
    simp only [List.length_append, List.length_cons]
    omega

/-- Round trip of the UTF-8 decoder over the UTF-8 encoder. -/
theorem utf8Decode_utf8Encode (s : List Char) : utf8Decode (utf8Encode s) = some s := by
  unfold utf8Decode
  exact utf8DecodeLoop_encode s _ (by have := length_le_utf8Encode s; omega)

theorem parseHex_hexDigitChar : ∀ n, n < 16 → parseHex (hexDigitChar n) = some n := by decide

/-- Parsing an escaped string body recovers the original string and the
suffix after the closing quote, given fuel above the character count. -/
theorem parseStringBody_escape (s : List Char) :
    ∀ f t, s.length < f →
      parseStringBody f (s.flatMap escapeChar ++ ('"' :: t)) = some (s, t) := by
  induction s with
  | nil =>
    intro f t hf
    rcases f with _ | f2
    · omega
    · simp [parseStringBody]
  | cons c cs ih =>
    intro f t hf
    rcases f with _ | f2
    · omega
    have hih : ∀ t2, parseStringBody f2 (cs.flatMap escapeChar ++ ('"' :: t2)) = some (cs, t2) :=
      fun t2 => ih f2 t2 (by simp at hf; omega)
    rw [List.flatMap_cons, List.append_assoc]
    by_cases h1 : c = '"'
    · subst h1
      simp [escapeChar, parseStringBody, strCons, hih]
    by_cases h2 : c = '\\'
    · subst h2
      simp [escapeChar, parseStringBody, strCons, hih, h1]
    by_cases h3 : c = Char.ofNat 8
    · subst h3
      simp [escapeChar, parseStringBody, strCons, hih, h1, h2]
    by_cases h4 : c = Char.ofNat 9
    · subst h4
      simp [escapeChar, parseStringBody, strCons, hih, h1, h2, h3]
    by_cases h5 : c = Char.ofNat 10
    · subst h5
      simp [escapeChar, parseStringBody, strCons, hih, h1, h2, h3, h4]
    by_cases h6 : c = Char.ofNat 12
    · subst h6
      simp [escapeChar, parseStringBody, strCons, hih, h1, h2, h3, h4, h5]
    by_cases h7 : c = Char.ofNat 13
    · subst h7
      simp [escapeChar, parseStringBody, strCons, hih, h1, h2, h3, h4, h5, h6]
    by_cases h8 : c.toNat < 32
    · have henc : escapeChar c =
          ['\\', 'u', '0', '0', hexDigitChar (c.toNat / 16), hexDigitChar (c.toNat % 16)] := by
        unfold escapeChar
        rw [if_neg h1, if_neg h2, if_neg h3, if_neg h4, if_neg h5, if_neg h6, if_neg h7,
          if_pos h8]
      rw [henc]
      rw [show ['\\', 'u', '0', '0', hexDigitChar (c.toNat / 16), hexDigitChar (c.toNat % 16)] ++
          (cs.flatMap escapeChar ++ ('"' :: t)) =
          '\\' :: 'u' :: '0' :: '0' :: hexDigitChar (c.toNat / 16) ::
          hexDigitChar (c.toNat % 16) :: (cs.flatMap escapeChar ++ ('"' :: t)) from rfl]
      have hhex1 := parseHex_hexDigitChar (c.toNat / 16) (by omega)
      have hhex2 := parseHex_hexDigitChar (c.toNat % 16) (by omega)
      have hzero : parseHex '0' = some 0 := by decide
      have hvalue2 : c.toNat / 16 * 16 + c.toNat % 16 = c.toNat := by omega
      have hvalid : Nat.isValidChar c.toNat := by
        left
        omega
      simp [parseStringBody, strCons, hzero, hhex1, hhex2, hvalue2, hvalid, hih,
        Char.ofNat_toNat]
    · have henc : escapeChar c = [c] := by
        unfold escapeChar
        rw [if_neg h1, if_neg h2, if_neg h3, if_neg h4, if_neg h5, if_neg h6, if_neg h7,
          if_neg h8]
      rw [henc]
      rw [show [c] ++ (cs.flatMap escapeChar ++ ('"' :: t)) =
          c :: (cs.flatMap escapeChar ++ ('"' :: t)) from rfl]
      simp only [parseStringBody]
      rw [if_neg h1, if_neg h2, if_neg h8, hih, strCons]
      rfl

/-- Every character contributes at least one escaped character. -/
theorem length_le_flatMap_escape (s : List Char) :
    s.length ≤ (s.flatMap escapeChar).length := by
  induction s with
  | nil => simp
  | cons c cs ih =>
    rw [List.flatMap_cons, List.length_append, List.length_cons]
    have hpos : 1 ≤ (escapeChar c).length := by
      unfold escapeChar
      split_ifs <;> simp
    omega

/-- Splitting a quoted string followed by anything into head quote and
body. -/
theorem jsonQuote_append (s X : List Char) :
    jsonQuote s ++ X = '"' :: (s.flatMap escapeChar ++ ('"' :: X)) := by
  simp [jsonQuote]

/-- Parsing a stringified string recovers it together with the suffix. -/
theorem parsePrim_quote (s u : List Char) :
    parsePrim (jsonQuote s ++ u) = some (JsonPrim.str s, u) := by
  rw [jsonQuote_append]
  have hlen : s.length < (s.flatMap escapeChar ++ ('"' :: u)).length + 1 := by
    have := length_le_flatMap_escape s
    rw [List.length_append]
    omega
  have hesc := parseStringBody_escape s ((s.flatMap escapeChar ++ ('"' :: u)).length + 1) u hlen
  simp only [parsePrim, if_true]
  rw [hesc]
  rfl

/-- Parsing one non-final member (followed by a comma) peels it off. -/
theorem parseMembers_step (f : Nat) (key s u : List Char) :
    parseMembers (f + 1) (jsonQuote key ++ (':' :: (jsonQuote s ++ (',' :: u)))) =
      (parseMembers f u).map (fun p => ((key, JsonPrim.str s) :: p.1, p.2)) := by
  rw [jsonQuote_append]
  have hlen : key.length <
      (key.flatMap escapeChar ++ ('"' :: (':' :: (jsonQuote s ++ (',' :: u))))).length + 1 := by
    have := length_le_flatMap_escape key
    rw [List.length_append]
    omega
  have hesc := parseStringBody_escape key
    ((key.flatMap escapeChar ++ ('"' :: (':' :: (jsonQuote s ++ (',' :: u))))).length + 1)
    (':' :: (jsonQuote s ++ (',' :: u))) hlen
  simp only [parseMembers]
  rw [hesc]
  simp [parsePrim_quote]

/-- Parsing the final member (followed by the closing brace) ends the
member list. -/
theorem parseMembers_last (f : Nat) (key s u : List Char) :
    parseMembers (f + 1) (jsonQuote key ++ (':' :: (jsonQuote s ++ (rbrace :: u)))) =
      some ([(key, JsonPrim.str s)], u) := by
  rw [jsonQuote_append]
  have hlen : key.length <
      (key.flatMap escapeChar ++ ('"' :: (':' :: (jsonQuote s ++ (rbrace :: u))))).length + 1 := by
    have := length_le_flatMap_escape key
    rw [List.length_append]
    omega
  have hesc := parseStringBody_escape key
    ((key.flatMap escapeChar ++ ('"' :: (':' :: (jsonQuote s ++ (rbrace :: u))))).length + 1)
    (':' :: (jsonQuote s ++ (rbrace :: u))) hlen
  have hne : ¬(rbrace = ',') := by decide
  simp only [parseMembers]
  rw [hesc]
  simp [parsePrim_quote, hne]

/-- Parsing the member list of a stringified bundle yields its three
fields, given fuel for three members. -/
theorem parseMembers_bundle (b : Bundle) (f : Nat) (hf : 3 ≤ f) :
    parseMembers f (jsonQuote htmlKey ++ (':' :: (jsonQuote b.html.data ++ (',' ::
      (jsonQuote cssKey ++ (':' :: (jsonQuote b.css.data ++ (',' ::
      (jsonQuote jsKey ++ (':' :: (jsonQuote b.js.data ++ [rbrace]))))))))))) =
      some ([(htmlKey, JsonPrim.str b.html.data), (cssKey, JsonPrim.str b.css.data),
        (jsKey, JsonPrim.str b.js.data)], []) := by
  obtain ⟨k, rfl⟩ : ∃ k, f = k + 1 + 1 + 1 := ⟨f - 3, by omega⟩
  rw [parseMembers_step]
  rw [parseMembers_step]
  rw [show jsonQuote b.js.data ++ [rbrace] = jsonQuote b.js.data ++ (rbrace :: []) from rfl]
  rw [parseMembers_last]
  rfl

/-- Parsing a brace-headed text whose member list parses to exhaustion
yields the object. -/
theorem parseValue_obj_members (M : List Char) (flds : List (List Char × JsonPrim))
    (hhead : M.head? = some '"')
    (hm : parseMembers (M.length + 1) M = some (flds, [])) :
    parseValue (lbrace :: M) = some (JsonVal.obj flds, []) := by
  simp only [parseValue, if_true]
  rw [if_neg (show ¬(M.head? = some rbrace) from by rw [hhead]; decide)]
  rw [hm]
  rfl

/-- Parsing a stringified bundle yields exactly its JSON object with no
leftover input. -/
theorem parseValue_stringifyBundle (b : Bundle) :
    parseValue (stringifyBundle b) = some (bundleJson b, []) := by
  unfold stringifyBundle bundleJson
  apply parseValue_obj_members
  · rw [jsonQuote_append]
    rfl
  · apply parseMembers_bundle
    rw [jsonQuote_append]
    simp only [List.length_cons, List.length_append]
    omega

/-- Round trip of `JSON.parse` over a stringified bundle. -/
theorem jsonParse_stringifyBundle (b : Bundle) :
    jsonParse (stringifyBundle b) = some (bundleJson b) := by
  unfold jsonParse
  rw [parseValue_stringifyBundle]

/-- Round trip of the share decoding over the share encoding. -/
theorem decodeState_encodeState (b : Bundle) :
    decodeState (encodeState b) = some (bundleJson b) := by
  have h1 : atobModel (btoaChunks (utf8Encode (stringifyBundle b))) =
      some (utf8Encode (stringifyBundle b)) :=
    atobModel_btoaChunks _ (utf8Encode_lt _)
  have h2 : utf8Decode (utf8Encode (stringifyBundle b)) = some (stringifyBundle b) :=
    utf8Decode_utf8Encode _
  simp only [decodeState, encodeState]
  rw [h1]
  simp [h2, jsonParse_stringifyBundle]

/-! ## Supporting lemmas for the claims -/

/-- One edit in automatic mode replaces the bundle and reschedules the
pending render; nothing else changes. -/
theorem step_edit_auto (m : PreviewState) (h : m.autoUpdate = true) (b : Bundle) :
    step m (Event.edit b) = { m with bundle := b, pending := some (srcDoc b) } := by
  simp [step, attrSync, h]

/-- Edits in automatic mode never render and never change the mode or
surface. -/
theorem editsRun_invariant (bs : List Bundle) : ∀ m : PreviewState, m.autoUpdate = true →
    (editsRun m bs).autoUpdate = true ∧ (editsRun m bs).renders = m.renders ∧
    (editsRun m bs).surface = m.surface := by
  induction bs with
  | nil => intro m h; exact ⟨h, rfl, rfl⟩
  | cons b bs ih =>
    intro m h
    have hstep : editsRun m (b :: bs) = editsRun (step m (Event.edit b)) bs := rfl
    rw [hstep, step_edit_auto m h b]
    exact ih _ h

/-- After a run of automatic-mode edits ending with `b`, the machine
holds `b` and a pending render of `b`'s composed document, superseding
every earlier pending render. -/
theorem editsRun_last (bs : List Bundle) (b : Bundle) (m : PreviewState)
    (h : m.autoUpdate = true) :
    editsRun m (bs ++ [b]) =
      { editsRun m bs with bundle := b, pending := some (srcDoc b) } := by
  unfold editsRun
  rw [List.foldl_append]
  have hauto := (editsRun_invariant bs m h).1
  simpa using step_edit_auto (editsRun m bs) hauto b

/-- Every character of a share token lies in the base64 alphabet (with
padding). -/
theorem mem_encodeState_token (b : Bundle) : ∀ c ∈ encodeState b, isB64TokenChar c = true :=
  mem_btoaChunks_token _ (utf8Encode_lt _)

theorem formSafeChar_toNat (c : Char) (h : formSafeChar c = true) :
    c.toNat = 42 ∨ c.toNat = 45 ∨ c.toNat = 46 ∨ c.toNat = 95 ∨
    (48 ≤ c.toNat ∧ c.toNat ≤ 57) ∨ (65 ≤ c.toNat ∧ c.toNat ≤ 90) ∨
    (97 ≤ c.toNat ∧ c.toNat ≤ 122) := by
  unfold formSafeChar at h
  simp only [Bool.or_eq_true, Bool.and_eq_true, decide_eq_true_eq] at h
  tauto

theorem parseHex_hexUpper : ∀ n, n < 16 → parseHex (hexUpper n) = some n := by decide

/-- The form-urlencoded value parser inverts the serializer on base64
tokens, given fuel above the character count. -/
theorem parseFormValueAux_serialize (s : List Char) :
    ∀ f, s.length < f → (∀ c ∈ s, isB64TokenChar c = true) →
      parseFormValueAux f (serializeFormValue s) = s := by
  induction s with
  | nil =>
    intro f hf _
    rcases f with _ | f2
    · omega
    · rfl
  | cons c cs ih =>
    intro f hf hs
    rcases f with _ | f2
    · omega
    have htok : isB64TokenChar c = true := hs c (by simp)
    have htokr : ∀ x ∈ cs, isB64TokenChar x = true := fun x hx => hs x (by simp [hx])
    have hrange := isB64TokenChar_toNat c htok
    have hihr : parseFormValueAux f2 (serializeFormValue cs) = cs :=
      ih f2 (by simp at hf; omega) htokr
    by_cases hsafe : formSafeChar c = true
    · have hser : serializeFormValue (c :: cs) = c :: serializeFormValue cs := by
        simp [serializeFormValue, hsafe]
      rw [hser]
      have hne1 : ¬(c = '+') := fun hEq => by
        rw [hEq] at hsafe
        exact absurd hsafe (by decide)
      have hne2 : ¬(c = '%') := fun hEq => by
        rw [hEq] at hsafe
        exact absurd hsafe (by decide)
      simp only [parseFormValueAux]
      rw [if_neg hne1, if_neg hne2, hihr]
    · have h32 : ¬(c.toNat = 32) := by omega
      have hser : serializeFormValue (c :: cs) =
          '%' :: hexUpper (c.toNat / 16) :: hexUpper (c.toNat % 16) ::
            serializeFormValue cs := by
        simp [serializeFormValue, hsafe, h32]
      rw [hser]
      have hp1 := parseHex_hexUpper (c.toNat / 16) (by omega)
      have hp2 := parseHex_hexUpper (c.toNat % 16) (by omega)
      have hv : c.toNat / 16 * 16 + c.toNat % 16 = c.toNat := by omega
      simp only [parseFormValueAux]
      simp [hp1, hp2, hv, hihr, Char.ofNat_toNat]

/-- Serialized tokens are at least as long as the tokens themselves. -/
theorem length_le_serializeFormValue (s : List Char) :
    s.length ≤ (serializeFormValue s).length := by
  induction s with
  | nil => simp [serializeFormValue]
  | cons c cs ih =>
    have hser : serializeFormValue (c :: cs) =
        (if formSafeChar c then [c]
         else if c.toNat = 32 then ['+']
         else ['%', hexUpper (c.toNat / 16), hexUpper (c.toNat % 16)]) ++
        serializeFormValue cs := by
      simp [serializeFormValue]
    rw [hser, List.length_append, List.length_cons]
    have : 1 ≤ (if formSafeChar c then [c]
        else if c.toNat = 32 then ['+']
        else ['%', hexUpper (c.toNat / 16), hexUpper (c.toNat % 16)]).length := by
      split_ifs <;> simp
    omega

/-- The form-urlencoded round trip on base64 tokens. -/
theorem parseFormValue_serialize (s : List Char)
    (hs : ∀ c ∈ s, isB64TokenChar c = true) :
    parseFormValue (serializeFormValue s) = s := by
  unfold parseFormValue
  apply parseFormValueAux_serialize s _ _ hs
  have := length_le_serializeFormValue s
  omega

theorem jsGet_bundleJson_html (b : Bundle) :
    jsGet (some (bundleJson b)) htmlKey = some (JsonPrim.str b.html.data) := by
  unfold jsGet bundleJson
  simp only [List.foldl_cons, List.foldl_nil]
  rw [if_neg (show ¬(jsKey = htmlKey) from by decide),
    if_neg (show ¬(cssKey = htmlKey) from by decide), if_pos trivial]

theorem jsGet_bundleJson_css (b : Bundle) :
    jsGet (some (bundleJson b)) cssKey = some (JsonPrim.str b.css.data) := by
  unfold jsGet bundleJson
  simp only [List.foldl_cons, List.foldl_nil]
  rw [if_neg (show ¬(jsKey = cssKey) from by decide), if_pos trivial]

theorem jsGet_bundleJson_js (b : Bundle) :
    jsGet (some (bundleJson b)) jsKey = some (JsonPrim.str b.js.data) := by
  unfold jsGet bundleJson
  simp only [List.foldl_cons, List.foldl_nil]
  rw [if_pos trivial]

/-- A left-associated `??` chain against a default equals the
first-non-nullish reading of the priority list. -/
theorem coalesce_chain (a b c : Option JsonPrim) (d : JsonPrim) :
    coalesceD (coalesce (coalesce a b) c) d =
      coalesceD (firstNonNullish [a, b, c]) d := by
  by_cases ha : nullish a = true
  · by_cases hb : nullish b = true
    · by_cases hc : nullish c = true
      · simp [coalesce, coalesceD, firstNonNullish, ha, hb, hc]
      · simp [coalesce, coalesceD, firstNonNullish, ha, hb, hc]
    · simp [coalesce, coalesceD, firstNonNullish, ha, hb]
  · simp [coalesce, coalesceD, firstNonNullish, ha]

theorem srcDoc_head (b : Bundle) : (srcDoc b).head? = some '<' := rfl

theorem stringifyBundle_head (b : Bundle) : (stringifyBundle b).head? = some lbrace := rfl

/-- Decoding a full-bundle share token resolves every field from the
token, whatever the snapshot and `initial` prop hold. -/
theorem init_of_valid_token (b : Bundle) (storageRaw : Option (List Char))
    (ini : List (List Char × JsonPrim)) :
    initHtml ⟨some (encodeState b), storageRaw, ini⟩ = JsonPrim.str b.html.data ∧
    initCss ⟨some (encodeState b), storageRaw, ini⟩ = JsonPrim.str b.css.data ∧
    initJs ⟨some (encodeState b), storageRaw, ini⟩ = JsonPrim.str b.js.data := by
  have hurl : fromUrl ⟨some (encodeState b), storageRaw, ini⟩ = some (bundleJson b) := by
    unfold fromUrl
    exact decodeState_encodeState b
  refine ⟨?_, ?_, ?_⟩
  · unfold initHtml
    rw [hurl, jsGet_bundleJson_html]
    simp [coalesce, coalesceD, nullish]
  · unfold initCss
    rw [hurl, jsGet_bundleJson_css]
    simp [coalesce, coalesceD, nullish]
  · unfold initJs
    rw [hurl, jsGet_bundleJson_js]
    simp [coalesce, coalesceD, nullish]

/-- With no token and an unparseable snapshot, every field resolves to
the built-in default (no exception escapes: the parse failure is already
`none`). -/
theorem init_of_bad_storage (badRaw : List Char) (hbad : jsonParse badRaw = none) :
    initHtml ⟨none, some badRaw, []⟩ = JsonPrim.str DEFAULT_TEMPLATE.html.data ∧
    initCss ⟨none, some badRaw, []⟩ = JsonPrim.str DEFAULT_TEMPLATE.css.data ∧
    initJs ⟨none, some badRaw, []⟩ = JsonPrim.str DEFAULT_TEMPLATE.js.data := by
  have hst : fromStorage ⟨none, some badRaw, []⟩ = none := by
    unfold fromStorage
    exact hbad
  refine ⟨?_, ?_, ?_⟩
  · unfold initHtml
    rw [hst]
    simp [fromUrl, jsGet, initialGet, coalesce, coalesceD, nullish]
  · unfold initCss
    rw [hst]
    simp [fromUrl, jsGet, initialGet, coalesce, coalesceD, nullish]
  · unfold initJs
    rw [hst]
    simp [fromUrl, jsGet, initialGet, coalesce, coalesceD, nullish]

/-! ## Claim theorems -/

/-- Claim C1: for every SourceBundle whose three fields are valid
strings, decoding the share encoding yields the bundle exactly:
`decodeState (encodeState b)` is the bundle's JSON object, and reading
the three fields back out of it recovers `b`. -/
theorem claim_C1_share_round_trip (b : Bundle) :
    decodeState (encodeState b) = some (bundleJson b) ∧
    (decodeState (encodeState b)).bind bundleOfJson = some b := by
  refine ⟨decodeState_encodeState b, ?_⟩
  rw [decodeState_encodeState b]
  show bundleOfJson (bundleJson b) = some b
  unfold bundleOfJson bundleJson
  show (if htmlKey = htmlKey ∧ cssKey = cssKey ∧ jsKey = jsKey then
      some (⟨String.mk b.html.data, String.mk b.css.data, String.mk b.js.data⟩ : Bundle)
    else none) = some b
  rw [if_pos ⟨rfl, rfl, rfl⟩]

set_option maxRecDepth 16384 in
/-- Claim C2 (demonstration of the code bug): in manual mode
(`autoUpdate = false`), a single buffer edit with no refresh trigger
already re-renders the preview surface, because the iframe attribute
binding `srcDoc=\x7bautoUpdate ? undefined : srcDoc\x7d` tracks the
composed document whenever `autoUpdate` is off.  The model starts from a
converged manual-mode state, applies one edit event, and the render
counter increments with the surface showing the new document — before
any `refreshPreview`. -/
theorem claim_C2_manual_edit_renders :
    (step ⟨DEFAULT_TEMPLATE, false, none, some (srcDoc DEFAULT_TEMPLATE), 0⟩
      (Event.edit starterTemplate)).renders = 1 ∧
    (step ⟨DEFAULT_TEMPLATE, false, none, some (srcDoc DEFAULT_TEMPLATE), 0⟩
      (Event.edit starterTemplate)).surface = some (srcDoc starterTemplate) := by
  decide

/-- Claim C3 (counterexample): the current bundle is not resolved as a
whole by source priority.  With a share token that decodes successfully
(to an object carrying only `html`), the resolved `css` still comes from
the persisted snapshot: two loads differing only in the snapshot resolve
different bundles under the same decodable token. -/
theorem claim_C3_counterexample :
    (fromUrl srcCex1).isSome = true ∧
    fromUrl srcCex1 = fromUrl srcCex2 ∧
    initHtml srcCex1 = JsonPrim.str (("A").data) ∧
    initCss srcCex1 = JsonPrim.str (("C").data) ∧
    initCss srcCex2 = JsonPrim.str (("C2").data) ∧
    initCss srcCex1 ≠ initCss srcCex2 := by
  decide

/-- Claim C3 (amended): each buffer is resolved per field by priority
(token field, else snapshot field, else `initial` prop field, else
default).  Consequently a token that decodes to a full three-string
bundle wins wholesale over any snapshot and `initial` prop, and with no
token an unparseable snapshot falls through to the built-in default
bundle without throwing. -/
theorem claim_C3_amended (b : Bundle) (storageRaw : Option (List Char))
    (ini : List (List Char × JsonPrim)) (badRaw : List Char)
    (hbad : jsonParse badRaw = none) :
    (initHtml ⟨some (encodeState b), storageRaw, ini⟩ = JsonPrim.str b.html.data ∧
     initCss ⟨some (encodeState b), storageRaw, ini⟩ = JsonPrim.str b.css.data ∧
     initJs ⟨some (encodeState b), storageRaw, ini⟩ = JsonPrim.str b.js.data) ∧
    (initHtml ⟨none, some badRaw, []⟩ = JsonPrim.str DEFAULT_TEMPLATE.html.data ∧
     initCss ⟨none, some badRaw, []⟩ = JsonPrim.str DEFAULT_TEMPLATE.css.data ∧
     initJs ⟨none, some badRaw, []⟩ = JsonPrim.str DEFAULT_TEMPLATE.js.data) :=
  ⟨init_of_valid_token b storageRaw ini, init_of_bad_storage badRaw hbad⟩

/-- Witness for claim C3's amended theorem at a concrete bundle, a
concrete snapshot and a concrete truncated-JSON snapshot. -/
theorem claim_C3_witness :
    jsonParse (("\x7b\"html\":").data) = none ∧
    ((initHtml ⟨some (encodeState ⟨"a", "b", "c"⟩), some storageBCD, []⟩ =
        JsonPrim.str (("a") : String).data ∧
      initCss ⟨some (encodeState ⟨"a", "b", "c"⟩), some storageBCD, []⟩ =
        JsonPrim.str (("b") : String).data ∧
      initJs ⟨some (encodeState ⟨"a", "b", "c"⟩), some storageBCD, []⟩ =
        JsonPrim.str (("c") : String).data) ∧
     (initHtml ⟨none, some (("\x7b\"html\":").data), []⟩ =
        JsonPrim.str DEFAULT_TEMPLATE.html.data ∧
      initCss ⟨none, some (("\x7b\"html\":").data), []⟩ =
        JsonPrim.str DEFAULT_TEMPLATE.css.data ∧
      initJs ⟨none, some (("\x7b\"html\":").data), []⟩ =
        JsonPrim.str DEFAULT_TEMPLATE.js.data)) :=
  ⟨by decide, claim_C3_amended ⟨"a", "b", "c"⟩ (some storageBCD) [] (("\x7b\"html\":").data)
    (by decide)⟩

/-- Claim C4: the composer is a total function of the bundle, producing
one document string that embeds the style buffer inside the style block,
the markup buffer inside the body, and the script buffer inside a
`try`/`catch` guard whose handler appends the fault's stack or message
as a red `pre` element to the document body. -/
theorem claim_C4_composer_shape (b : Bundle) :
    srcDoc b = docSeg1.data ++ (b.css.data ++ (docSeg2.data ++ (b.html.data ++
      (docSeg3.data ++ (b.js.data ++ docSeg4.data))))) ∧
    hasSeg (("<style>").data) docSeg1.data = true ∧
    hasSeg (("</style>").data) docSeg2.data = true ∧
    hasSeg (("<body>").data) docSeg2.data = true ∧
    hasSeg (("<script>").data) docSeg3.data = true ∧
    hasSeg (("try \x7b").data) docSeg3.data = true ∧
    hasSeg (("\x7d catch (e) \x7b").data) docSeg4.data = true ∧
    hasSeg (("pre.textContent = e.stack || e.toString();").data) docSeg4.data = true ∧
    hasSeg (("document.body.appendChild(pre);").data) docSeg4.data = true ∧
    hasSeg (("</script>").data) docSeg4.data = true :=
  ⟨rfl, by decide, by decide, by decide, by decide, by decide, by decide, by decide,
    by decide, by decide⟩

/-- Claim C5: in automatic mode, a burst of edits inside the coalescing
window performs no render by itself; the single timer expiry that
follows performs exactly one render, its content composed from the last
edit, and leaves no pending render (each edit superseded the previous
pending one). -/
theorem claim_C5_debounce (m : PreviewState) (bs : List Bundle) (b : Bundle)
    (h : m.autoUpdate = true) :
    (editsRun m (bs ++ [b])).renders = m.renders ∧
    (step (editsRun m (bs ++ [b])) Event.timerFire).renders = m.renders + 1 ∧
    (step (editsRun m (bs ++ [b])) Event.timerFire).surface = some (srcDoc b) ∧
    (step (editsRun m (bs ++ [b])) Event.timerFire).pending = none := by
  have hrun := editsRun_last bs b m h
  have hinv := editsRun_invariant (bs ++ [b]) m h
  have hinv0 := editsRun_invariant bs m h
  refine ⟨hinv.2.1, ?_, ?_, ?_⟩
  · rw [hrun]
    simp [step, writeSurface]
    exact hinv0.2.1
  · rw [hrun]
    simp [step, writeSurface]
  · rw [hrun]
    simp [step, writeSurface]

/-- Witness for claim C5 at a concrete automatic-mode state and two
edits inside one window. -/
theorem claim_C5_witness :
    (editsRun ⟨DEFAULT_TEMPLATE, true, none, none, 0⟩
        ([starterTemplate] ++ [reactPlayTemplate])).renders =
      (⟨DEFAULT_TEMPLATE, true, none, none, 0⟩ : PreviewState).renders ∧
    (step (editsRun ⟨DEFAULT_TEMPLATE, true, none, none, 0⟩
        ([starterTemplate] ++ [reactPlayTemplate])) Event.timerFire).renders =
      (⟨DEFAULT_TEMPLATE, true, none, none, 0⟩ : PreviewState).renders + 1 ∧
    (step (editsRun ⟨DEFAULT_TEMPLATE, true, none, none, 0⟩
        ([starterTemplate] ++ [reactPlayTemplate])) Event.timerFire).surface =
      some (srcDoc reactPlayTemplate) ∧
    (step (editsRun ⟨DEFAULT_TEMPLATE, true, none, none, 0⟩
        ([starterTemplate] ++ [reactPlayTemplate])) Event.timerFire).pending = none :=
  claim_C5_debounce ⟨DEFAULT_TEMPLATE, true, none, none, 0⟩ [starterTemplate]
    reactPlayTemplate rfl

/-- Claim C6: the exported download's content is exactly the composed
document of the current bundle — the same string as the live preview,
guard included — and not the JSON serialization of the three raw
buffers. -/
theorem claim_C6_download_equals_composed (b : Bundle) :
    downloadProject b = srcDoc b ∧ downloadProject b ≠ stringifyBundle b := by
  refine ⟨rfl, fun h => ?_⟩
  have h1 : (downloadProject b).head? = some '<' := rfl
  have h2 : (stringifyBundle b).head? = some lbrace := rfl
  rw [h] at h1
  rw [h1] at h2
  exact absurd h2 (by decide)

/-- Claim C7: applying a named template replaces all three buffers with
the preset's values: the result is the preset itself, independent of the
prior bundle. -/
theorem claim_C7_template_replaces_all (name : String) (t cur cur2 : Bundle)
    (h : TEMPLATES name = some t) :
    applyTemplate name cur = t ∧ applyTemplate name cur = applyTemplate name cur2 := by
  unfold applyTemplate
  rw [h]
  exact ⟨rfl, rfl⟩

/-- Witness for claim C7 at the starter preset, applied over two
different prior bundles. -/
theorem claim_C7_witness :
    applyTemplate starterName DEFAULT_TEMPLATE = starterTemplate ∧
    applyTemplate starterName DEFAULT_TEMPLATE =
      applyTemplate starterName reactPlayTemplate :=
  claim_C7_template_replaces_all starterName starterTemplate DEFAULT_TEMPLATE
    reactPlayTemplate (by decide)

/-- Claim C8 (counterexample): the share encoding is not verbatim
URL-safe.  A concrete bundle's token (checked against the real `btoa`
output) contains `+`, and the component's own query-value reader turns a
verbatim-embedded `+` into a space, so the token does not survive
verbatim embedding. -/
theorem claim_C8_counterexample :
    encodeState plusBundle = ("eyJodG1sIjoiYWEiLCJjc3MiOiIiLCJqcyI6IsO+In0=").data ∧
    '+' ∈ encodeState plusBundle ∧
    parseFormValue (encodeState plusBundle) ≠ encodeState plusBundle := by
  decide

/-- Claim C8 (amended): every character of a share token lies in the
base64 alphabet (`A`-`Z`, `a`-`z`, `0`-`9`, `+`, `/`) plus `=` padding —
an alphabet that is not verbatim URL-safe — and the token survives the
URL because `generateShareURL` percent-encodes it via
`searchParams.set`, whose value reader restores it exactly. -/
theorem claim_C8_amended (b : Bundle) :
    (∀ c ∈ encodeState b, isB64TokenChar c = true) ∧
    parseFormValue (shareQueryValue b) = encodeState b := by
  refine ⟨mem_encodeState_token b, ?_⟩
  unfold shareQueryValue
  exact parseFormValue_serialize _ (mem_encodeState_token b)

/-- Witness for claim C8's amended theorem at the `+`-containing bundle
and the character `+` itself. -/
theorem claim_C8_witness :
    isB64TokenChar '+' = true ∧
    parseFormValue (shareQueryValue plusBundle) = encodeState plusBundle :=
  ⟨(claim_C8_amended plusBundle).1 '+' (by decide), (claim_C8_amended plusBundle).2⟩

/-- Claim C9: when storage is unavailable or over quota (`setItem`
throws), the save is a silent no-op: the component state — buffers,
`lastSavedAt`, and the stored slot — is unchanged, and only a log line
is produced. -/
theorem claim_C9_save_silent_noop (st : AppState) (now : List Char) :
    (saveToLocal false now st).1 = st ∧ (saveToLocal false now st).2 ≠ [] := by
  unfold saveToLocal
  exact ⟨rfl, by simp⟩

/-- Claim C10: on initial load each buffer is resolved independently by
the per-field priority chain — decoded token field, else stored snapshot
field, else `initial` prop field, else built-in default — so the
resolved bundle can mix fields from different sources; a concrete load
mixes all three (token `html`, snapshot `css`, `initial` `js`). -/
theorem claim_C10_per_field_resolution :
    (∀ src : InitSources,
      initHtml src = priorityField src htmlKey DEFAULT_TEMPLATE.html.data ∧
      initCss src = priorityField src cssKey DEFAULT_TEMPLATE.css.data ∧
      initJs src = priorityField src jsKey DEFAULT_TEMPLATE.js.data) ∧
    initHtml srcMix = JsonPrim.str (("A").data) ∧
    initCss srcMix = JsonPrim.str (("C").data) ∧
    initJs srcMix = JsonPrim.str (("J").data) := by
  refine ⟨fun src => ⟨?_, ?_, ?_⟩, by decide, by decide, by decide⟩
  · exact coalesce_chain (jsGet (fromUrl src) htmlKey) (jsGet (fromStorage src) htmlKey)
      (initialGet src htmlKey) (JsonPrim.str DEFAULT_TEMPLATE.html.data)
  · exact coalesce_chain (jsGet (fromUrl src) cssKey) (jsGet (fromStorage src) cssKey)
      (initialGet src cssKey) (JsonPrim.str DEFAULT_TEMPLATE.css.data)
  · exact coalesce_chain (jsGet (fromUrl src) jsKey) (jsGet (fromStorage src) jsKey)
      (initialGet src jsKey) (JsonPrim.str DEFAULT_TEMPLATE.js.data)

end OnlineCodeEditor
